import Mathlib

/-!
Shallow embedding of `src/main.py` (black hole simulation: frame loop with
physics integrator, WASD camera controller and layered render pass).

Conventions of the embedding:
* numpy/pyrr 3-vectors become `Vec3 := ℝ × ℝ × ℝ`; the source's float64
  arithmetic is idealised as exact real arithmetic, and its decimal literals
  (`6.67430e-11`, `0.01`, `0.5`, ...) as the exact rationals they denote.
* The 4x4 matrices the source builds (`Matrix44.identity`,
  `Matrix44.from_translation`, `Matrix44.look_at`,
  `Matrix44.perspective_projection`) are kept symbolic, as constructors of an
  inductive `Mat4`: every claim is about WHICH matrix is uploaded where,
  never about its entries.
* The physics update (src/main.py lines 192-196) divides by `r ** 2` and by
  `r` with no guard; at `r = 0` that division is degenerate (numpy produces
  `inf`/`nan` there), so the embedded step returns an `Option`, `none`
  exactly when `r = 0`.
* The render pass of one loop iteration is embedded as the list of draw
  calls it issues, in order, each recording the layer and the `model`,
  `view`, `proj` matrices written to that layer's program.
-/

namespace Blackhole

/-- A 3-component vector (numpy array / pyrr `Vector3`) over the reals. -/
abbrev Vec3 : Type := ℝ × ℝ × ℝ

/-- Euclidean norm, `np.linalg.norm` (src/main.py line 192). -/
noncomputable def norm3 (v : Vec3) : ℝ :=
  Real.sqrt (v.1 ^ 2 + v.2.1 ^ 2 + v.2.2 ^ 2)

/-- Cross product, `pyrr.Vector3.cross` (src/main.py lines 187-189). -/
noncomputable def cross (a b : Vec3) : Vec3 :=
  (a.2.1 * b.2.2 - a.2.2 * b.2.1,
   a.2.2 * b.1 - a.1 * b.2.2,
   a.1 * b.2.1 - a.2.1 * b.1)

/-- Gravitational constant, source literal `6.67430e-11` (src/main.py line 48). -/
noncomputable def g : ℝ := 6.67430e-11

/-- Black hole mass, source literal `1e31` (src/main.py line 49). -/
noncomputable def blackhole_mass : ℝ := 1e31

/-- Star mass, source literal `1e30` (src/main.py line 50). -/
noncomputable def star_mass : ℝ := 1e30

/-- Initial star position `[0.0, 0.0, 10.0]` (src/main.py line 51). -/
noncomputable def star_pos : Vec3 := (0, 0, 10)

/-- Initial star velocity `[0.0, 0.0, -0.1]` (src/main.py line 52). -/
noncomputable def star_vel : Vec3 := (0, 0, -0.1)

/-- Initial camera position (src/main.py line 55). -/
noncomputable def camera_pos : Vec3 := (0, 0, 20)

/-- Camera front vector (src/main.py line 56); never reassigned anywhere. -/
noncomputable def camera_front : Vec3 := (0, 0, -1)

/-- Camera up vector (src/main.py line 57); never reassigned anywhere. -/
noncomputable def camera_up : Vec3 := (0, 1, 0)

/-- The star's mutable kinematic state (`star_pos`, `star_vel`). -/
structure StarState where
  pos : Vec3
  vel : Vec3

/-- The acceleration the physics update computes (src/main.py lines 192-194):
`r = np.linalg.norm(star_pos)`, `force = -g * blackhole_mass * star_mass / (r**2)`,
`acc = force / star_mass * (star_pos / r)`. -/
noncomputable def sourceAccel (pos : Vec3) : Vec3 :=
  let r := norm3 pos
  ((-g * blackhole_mass * star_mass / r ^ 2) / star_mass) • (r⁻¹ • pos)

/-- One physics update (src/main.py lines 192-196):
`star_vel += acc * 0.01; star_pos += star_vel * 0.01`.
There is no guard in the source: when `r = 0` the expressions
`force = ... / (r**2)` and `star_pos / r` divide by zero (numpy yields
`inf`/`nan`), so the embedded step is undefined (`none`) there. -/
noncomputable def physicsStep (s : StarState) : Option StarState :=
  let r := norm3 s.pos
  if r = 0 then none
  else
    let acc := sourceAccel s.pos
    let vel' := s.vel + (0.01 : ℝ) • acc
    let pos' := s.pos + (0.01 : ℝ) • vel'
    some ⟨pos', vel'⟩

/-- Modelled from the spec's words: acceleration of magnitude
`G * blackholeMass / r^2`, directed from the star toward the origin
(the unit direction `-(pos / r)`). -/
noncomputable def spec_accel (pos : Vec3) : Vec3 :=
  (g * blackhole_mass / (norm3 pos) ^ 2) • (-((norm3 pos)⁻¹ • pos))

/-- Modelled from the spec's words: one semi-implicit Euler step with
timestep `dt` and acceleration `a`: velocity first, then position using the
already-updated velocity. -/
noncomputable def semiImplicitEulerStep (dt : ℝ) (a : Vec3) (s : StarState) :
    StarState :=
  let vel' := s.vel + dt • a
  { pos := s.pos + dt • vel', vel := vel' }

/-- Modelled from the spec's words: `normalize(v) = v / ‖v‖`. -/
noncomputable def spec_normalize (v : Vec3) : Vec3 := (norm3 v)⁻¹ • v

/-- The camera's pose: the module globals `camera_pos`, `camera_front`,
`camera_up` (src/main.py lines 55-57). -/
structure CameraPose where
  pos : Vec3
  front : Vec3
  up : Vec3

/-- The keys the event loop distinguishes; any other key falls through every
`if` (src/main.py lines 182-189). -/
inductive Key where
  | w
  | s
  | a
  | d
  | otherKey

/-- A pygame event as the loop inspects it: `QUIT`, `KEYDOWN` with a key, or
any other event type (src/main.py lines 177-189). -/
inductive PyEvent where
  | quit
  | keydown (k : Key)
  | otherEvent

/-- The `KEYDOWN` branch (src/main.py lines 181-189): W/S move along
`camera_front`, A/D along `Vector3.cross(camera_front, camera_up)` (the
source applies no normalization to the cross product), each scaled by 0.5. -/
noncomputable def applyKeydown (k : Key) (c : CameraPose) : CameraPose :=
  match k with
  | .w => { c with pos := c.pos + (0.5 : ℝ) • c.front }
  | .s => { c with pos := c.pos - (0.5 : ℝ) • c.front }
  | .a => { c with pos := c.pos - (0.5 : ℝ) • cross c.front c.up }
  | .d => { c with pos := c.pos + (0.5 : ℝ) • cross c.front c.up }
  | .otherKey => c

/-- One turn of the `for event in pygame.event.get()` loop
(src/main.py lines 177-189): `QUIT` clears `running`, `KEYDOWN` moves the
camera, anything else is ignored. -/
noncomputable def processEvent (st : Bool × CameraPose) (e : PyEvent) :
    Bool × CameraPose :=
  match e with
  | .quit => (false, st.2)
  | .keydown k => (st.1, applyKeydown k st.2)
  | .otherEvent => st

/-- The whole event-drain of one frame iteration. -/
noncomputable def applyEvents (events : List PyEvent) (st : Bool × CameraPose) :
    Bool × CameraPose :=
  events.foldl processEvent st

/-- The 4x4 matrices the source constructs, kept symbolic: the claims are
about which matrix each draw call receives, never about matrix entries. -/
inductive Mat4 where
  | identity
  | from_translation (v : Vec3)
  | look_at (eye target up : Vec3)
  | perspective_projection (fovy aspect near far : ℝ)

/-- The five layers of the scene, in the order the render pass names them. -/
inductive Layer where
  | background
  | disk
  | ring
  | blackhole
  | star
deriving DecidableEq

/-- One draw call of the render pass: the layer drawn and the `model`,
`view`, `proj` matrices written to its program just before `render`. -/
structure DrawCall where
  layer : Layer
  model : Mat4
  view : Mat4
  proj : Mat4

/-- The draw calls one loop iteration issues, in source order
(src/main.py lines 201-224): background (model identity, written inside
`draw_background`, line 12), disk (identity), ring (identity), blackhole
(identity), then the star with `Matrix44.from_translation(star_pos)` at the
star position the physics update just produced. -/
noncomputable def frameDraws (view proj : Mat4) (starPos : Vec3) : List DrawCall :=
  [⟨.background, .identity, view, proj⟩,
   ⟨.disk, .identity, view, proj⟩,
   ⟨.ring, .identity, view, proj⟩,
   ⟨.blackhole, .identity, view, proj⟩,
   ⟨.star, .from_translation starPos, view, proj⟩]

/-- The mutable state the loop body reads and writes: the star's kinematics,
the camera pose and the `running` flag. -/
structure SimState where
  star : StarState
  cam : CameraPose
  running : Bool

/-- One iteration of the `while running` body (src/main.py lines 176-226):
drain events, step the physics, recompute `view = look_at(camera_pos,
camera_pos + camera_front, camera_up)` (line 199), then issue the five draw
calls. `none` when the physics step hits its degenerate division. -/
noncomputable def frameStep (proj : Mat4) (events : List PyEvent)
    (st : SimState) : Option (SimState × List DrawCall) :=
  let (running, cam) := applyEvents events (st.running, st.cam)
  match physicsStep st.star with
  | none => none
  | some star' =>
      let view := Mat4.look_at cam.pos (cam.pos + cam.front) cam.up
      some (⟨star', cam, running⟩, frameDraws view proj star'.pos)

/-! ## Helper lemmas -/

theorem norm3_zaxis (z : ℝ) : norm3 (0, 0, z) = |z| := by
  simp [norm3, Real.sqrt_sq_eq_abs]

theorem norm3_zero : norm3 (0 : Vec3) = 0 := by
  simp [norm3]

theorem norm3_smul (a : ℝ) (v : Vec3) : norm3 (a • v) = |a| * norm3 v := by
  unfold norm3
  have h : (a • v).1 ^ 2 + (a • v).2.1 ^ 2 + (a • v).2.2 ^ 2
      = a ^ 2 * (v.1 ^ 2 + v.2.1 ^ 2 + v.2.2 ^ 2) := by
    show (a * v.1) ^ 2 + (a * v.2.1) ^ 2 + (a * v.2.2) ^ 2 = _
    ring
  rw [h, Real.sqrt_mul (sq_nonneg a), Real.sqrt_sq_eq_abs]

theorem star_mass_ne_zero : star_mass ≠ 0 := by norm_num [star_mass]

theorem gM_pos : 0 < g * blackhole_mass := by norm_num [g, blackhole_mass]

/-- The source's acceleration, simplified: the star's mass cancels, leaving
`-(G·M / r³) · pos`. -/
theorem sourceAccel_eq (pos : Vec3) (h : norm3 pos ≠ 0) :
    sourceAccel pos = (-(g * blackhole_mass / (norm3 pos) ^ 3)) • pos := by
  unfold sourceAccel
  rw [smul_smul]
  congr 1
  field_simp [h, star_mass_ne_zero]
  ring

/-- The source's acceleration agrees with the spec's formula
(magnitude `G·M/r²` toward the origin). -/
theorem sourceAccel_eq_spec (pos : Vec3) (h : norm3 pos ≠ 0) :
    sourceAccel pos = spec_accel pos := by
  rw [sourceAccel_eq pos h]
  unfold spec_accel
  rw [smul_neg, smul_smul, ← neg_smul]
  congr 1
  ring

/-! ## C1 -/

/-- C1: the claim requires a degeneracy guard (clamp or terminal state) so
that a physics step at `r = 0` yields no NaN/Inf. The source has no such
guard: at star position `(0,0,0)` the update divides by `r ** 2 = 0` and by
`r = 0` (numpy produces `inf` and `0/0 = nan`, which propagate into
`star_vel` and `star_pos`); the embedded step is accordingly undefined
(`none`), not guarded. -/
theorem c1_unguarded_degenerate_division :
    physicsStep ⟨(0, 0, 0), (0, 0, 0)⟩ = none := by
  simp [physicsStep, norm3_zero]

/-! ## C2 -/

/-- C2: for every star state at distance `r > 0` from the origin, the physics
update is one semi-implicit Euler step with fixed `dt = 0.01`: velocity is
updated first (`velocity += acceleration * dt`) and the position update then
uses the already-updated velocity (`position += velocity * dt`). -/
theorem c2_semi_implicit_euler (s : StarState) (h : norm3 s.pos ≠ 0) :
    physicsStep s = some (semiImplicitEulerStep 0.01 (spec_accel s.pos) s) := by
  unfold physicsStep semiImplicitEulerStep
  rw [if_neg h, sourceAccel_eq_spec s.pos h]

/-- C2 witness: the step at the program's initial star state
(`position = (0,0,10)`, `velocity = (0,0,-0.1)`, so `r = 10 > 0`). -/
theorem c2_witness :
    physicsStep ⟨star_pos, star_vel⟩
      = some (semiImplicitEulerStep 0.01 (spec_accel star_pos)
          ⟨star_pos, star_vel⟩) :=
  c2_semi_implicit_euler ⟨star_pos, star_vel⟩ (by
    show norm3 star_pos ≠ 0
    rw [star_pos, norm3_zaxis]
    norm_num)

/-! ## C3 -/

/-- C3: for every star position with `r > 0`, the acceleration computed by
the physics update has magnitude `G * blackholeMass / r²` and is directed
from the star toward the origin (a negative multiple of the position
vector); and concretely the acceleration magnitudes at `r = 10` and `r = 20`
have quotient exactly `4`. -/
theorem c3_inverse_square :
    (∀ pos : Vec3, 0 < norm3 pos →
        norm3 (sourceAccel pos) = g * blackhole_mass / (norm3 pos) ^ 2
        ∧ ∃ c : ℝ, 0 < c ∧ sourceAccel pos = -(c • pos))
    ∧ norm3 (sourceAccel ((0 : ℝ), 0, 10))
        / norm3 (sourceAccel ((0 : ℝ), 0, 20)) = 4 := by
  have key : ∀ pos : Vec3, 0 < norm3 pos →
      norm3 (sourceAccel pos) = g * blackhole_mass / (norm3 pos) ^ 2 := by
    intro pos hr
    rw [sourceAccel_eq pos (ne_of_gt hr), norm3_smul, abs_neg,
      abs_of_pos (div_pos gM_pos (pow_pos hr 3)), div_mul_eq_mul_div,
      pow_succ, mul_div_mul_right _ _ (ne_of_gt hr)]
  refine ⟨fun pos hr => ⟨key pos hr, g * blackhole_mass / (norm3 pos) ^ 3,
    div_pos gM_pos (pow_pos hr 3),
    by rw [sourceAccel_eq pos (ne_of_gt hr), neg_smul]⟩, ?_⟩
  have h10 : norm3 ((0 : ℝ), 0, 10) = 10 := by rw [norm3_zaxis]; norm_num
  have h20 : norm3 ((0 : ℝ), 0, 20) = 20 := by rw [norm3_zaxis]; norm_num
  rw [key _ (by rw [h10]; norm_num), key _ (by rw [h20]; norm_num), h10, h20]
  rw [div_div_div_comm]
  rw [div_self (ne_of_gt gM_pos)]
  norm_num

/-! ## C4 -/

/-- C4: on every camera pose of the program (the source never writes any
front/up vector other than the constants `camera_front`, `camera_up`), the W
command moves the position by exactly `+0.5 • front`, S by `-0.5 • front`,
and A/D by exactly `∓0.5 • normalize(cross(front, up))`: the source omits
the normalization, but `cross(camera_front, camera_up) = (1,0,0)` is already
a unit vector, so the displacement equals the spec's normalized one. -/
theorem c4_camera_steps (c : CameraPose)
    (hf : c.front = camera_front) (hu : c.up = camera_up) :
    applyKeydown .w c = { c with pos := c.pos + (0.5 : ℝ) • c.front }
    ∧ applyKeydown .s c = { c with pos := c.pos - (0.5 : ℝ) • c.front }
    ∧ applyKeydown .a c
        = { c with pos :=
              c.pos - (0.5 : ℝ) • spec_normalize (cross c.front c.up) }
    ∧ applyKeydown .d c
        = { c with pos :=
              c.pos + (0.5 : ℝ) • spec_normalize (cross c.front c.up) } := by
  have hc : cross c.front c.up = ((1 : ℝ), 0, 0) := by
    rw [hf, hu]
    unfold cross camera_front camera_up
    norm_num
  have hn : spec_normalize (cross c.front c.up) = cross c.front c.up := by
    rw [hc]
    unfold spec_normalize norm3
    norm_num
  exact ⟨rfl, rfl, by rw [hn]; rfl, by rw [hn]; rfl⟩

/-- The program's initial camera pose (src/main.py lines 55-57). -/
noncomputable def initCamera : CameraPose := ⟨camera_pos, camera_front, camera_up⟩

/-- C4 witness: the four commands at the program's initial camera pose. -/
theorem c4_witness :
    applyKeydown .w initCamera
      = { initCamera with pos := initCamera.pos + (0.5 : ℝ) • initCamera.front }
    ∧ applyKeydown .s initCamera
      = { initCamera with pos := initCamera.pos - (0.5 : ℝ) • initCamera.front }
    ∧ applyKeydown .a initCamera
      = { initCamera with pos := initCamera.pos
            - (0.5 : ℝ) • spec_normalize (cross initCamera.front initCamera.up) }
    ∧ applyKeydown .d initCamera
      = { initCamera with pos := initCamera.pos
            + (0.5 : ℝ) • spec_normalize (cross initCamera.front initCamera.up) } :=
  c4_camera_steps initCamera rfl rfl

/-! ## C5 -/

/-- C5: every frame iteration that completes issues exactly 5 draw calls, in
the fixed order background, disk, ring, blackhole, star. -/
theorem c5_render_order (proj : Mat4) (events : List PyEvent) (st : SimState)
    (out : SimState × List DrawCall)
    (h : frameStep proj events st = some out) :
    out.2.length = 5
    ∧ out.2.map DrawCall.layer
        = [.background, .disk, .ring, .blackhole, .star] := by
  unfold frameStep at h
  cases hp : physicsStep st.star with
  | none => rw [hp] at h; simp at h
  | some star' =>
      rw [hp] at h
      simp only [Option.some.injEq] at h
      subst h
      simp [frameDraws]

/-! ## C6 -/

/-- C6: in every completed frame iteration the model matrix uploaded for
background, disk, ring and blackhole is the identity, the star's model
matrix is the translation to the star position this iteration's physics step
produced, and all five draw calls share one view matrix and one projection
matrix. -/
theorem c6_model_matrices (proj : Mat4) (events : List PyEvent) (st : SimState)
    (st' : SimState) (ds : List DrawCall)
    (h : frameStep proj events st = some (st', ds)) :
    ds.map DrawCall.model
      = [.identity, .identity, .identity, .identity,
         .from_translation st'.star.pos]
    ∧ ∃ v : Mat4, ∀ d ∈ ds, d.view = v ∧ d.proj = proj := by
  unfold frameStep at h
  cases hp : physicsStep st.star with
  | none => rw [hp] at h; simp at h
  | some star' =>
      rw [hp] at h
      simp only [Option.some.injEq, Prod.mk.injEq] at h
      obtain ⟨h1, h2⟩ := h
      subst h1
      subst h2
      refine ⟨by simp [frameDraws],
        Mat4.look_at (applyEvents events (st.running, st.cam)).2.pos
          ((applyEvents events (st.running, st.cam)).2.pos
            + (applyEvents events (st.running, st.cam)).2.front)
          (applyEvents events (st.running, st.cam)).2.up, ?_⟩
      intro d hd
      simp [frameDraws] at hd
      rcases hd with h | h | h | h | h <;> subst h <;> exact ⟨rfl, rfl⟩

/-! ## C7 -/

/-- C7: in every completed frame iteration, every draw call's view matrix is
`look_at(position, position + front, up)` computed from the camera pose as
it stands after this iteration's input handling — not a value cached from a
previous pose. -/
theorem c7_view_recomputed (proj : Mat4) (events : List PyEvent) (st : SimState)
    (st' : SimState) (ds : List DrawCall)
    (h : frameStep proj events st = some (st', ds)) :
    st'.cam = (applyEvents events (st.running, st.cam)).2
    ∧ ∀ d ∈ ds,
        d.view = Mat4.look_at st'.cam.pos (st'.cam.pos + st'.cam.front)
          st'.cam.up := by
  unfold frameStep at h
  cases hp : physicsStep st.star with
  | none => rw [hp] at h; simp at h
  | some star' =>
      rw [hp] at h
      simp only [Option.some.injEq, Prod.mk.injEq] at h
      obtain ⟨h1, h2⟩ := h
      subst h1
      subst h2
      refine ⟨rfl, ?_⟩
      intro d hd
      simp [frameDraws] at hd
      rcases hd with h | h | h | h | h <;> subst h <;> rfl

/-! ## Concrete frame iteration shared by the C5/C6/C7 witnesses -/

theorem sourceAccel_unit :
    sourceAccel ((0 : ℝ), 0, 1) = ((0 : ℝ), 0, -667430000000000000000) := by
  have h1 : norm3 ((0 : ℝ), 0, 1) = 1 := by rw [norm3_zaxis]; norm_num
  unfold sourceAccel
  rw [h1]
  norm_num [g, blackhole_mass, star_mass, Prod.ext_iff, Prod.smul_def,
    smul_eq_mul]

theorem physicsStep_unit :
    physicsStep ⟨((0 : ℝ), 0, 1), ((0 : ℝ), 0, 0)⟩
      = some ⟨((0 : ℝ), 0, -66742999999999999),
              ((0 : ℝ), 0, -6674300000000000000)⟩ := by
  have h1 : norm3 ((0 : ℝ), 0, 1) = 1 := by rw [norm3_zaxis]; norm_num
  unfold physicsStep
  simp only [h1, sourceAccel_unit]
  norm_num [Prod.ext_iff, Prod.smul_def, smul_eq_mul, StarState.mk.injEq]

/-- Concrete frame-iteration input for the witnesses: star at `(0, 0, 1)` at
rest (so `r = 1 > 0`), the initial camera pose, no pending events. -/
noncomputable def wState : SimState :=
  ⟨⟨((0 : ℝ), 0, 1), ((0 : ℝ), 0, 0)⟩, initCamera, true⟩

/-- The simulation state after that frame iteration. -/
noncomputable def wState' : SimState :=
  ⟨⟨((0 : ℝ), 0, -66742999999999999), ((0 : ℝ), 0, -6674300000000000000)⟩,
   initCamera, true⟩

/-- The view matrix of that frame iteration. -/
noncomputable def wView : Mat4 :=
  Mat4.look_at initCamera.pos (initCamera.pos + initCamera.front) initCamera.up

/-- The draw calls of that frame iteration. -/
noncomputable def wDraws : List DrawCall :=
  frameDraws wView Mat4.identity ((0 : ℝ), 0, -66742999999999999)

theorem frameStep_w :
    frameStep Mat4.identity [] wState = some (wState', wDraws) := by
  unfold frameStep wState wState' wDraws wView applyEvents
  simp only [List.foldl_nil, physicsStep_unit]

/-- C5 witness: the concrete frame iteration `frameStep_w` has exactly five
draw calls in the required order. -/
theorem c5_witness :
    wDraws.length = 5
    ∧ wDraws.map DrawCall.layer
        = [.background, .disk, .ring, .blackhole, .star] :=
  c5_render_order Mat4.identity [] wState (wState', wDraws) frameStep_w

/-- C6 witness: in the concrete frame iteration `frameStep_w` the four static
layers get the identity model matrix, the star layer the translation to its
stepped position, and all five draws share one view and projection. -/
theorem c6_witness :
    wDraws.map DrawCall.model
      = [.identity, .identity, .identity, .identity,
         .from_translation wState'.star.pos]
    ∧ ∃ v : Mat4, ∀ d ∈ wDraws, d.view = v ∧ d.proj = Mat4.identity :=
  c6_model_matrices Mat4.identity [] wState wState' wDraws frameStep_w

/-- C7 witness: in the concrete frame iteration `frameStep_w` every draw's
view matrix is `look_at` of the post-input camera pose. -/
theorem c7_witness :
    wState'.cam = (applyEvents [] (wState.running, wState.cam)).2
    ∧ ∀ d ∈ wDraws,
        d.view = Mat4.look_at wState'.cam.pos
          (wState'.cam.pos + wState'.cam.front) wState'.cam.up :=
  c7_view_recomputed Mat4.identity [] wState wState' wDraws frameStep_w

/-! ## C8 -/

theorem sourceAccel_ten :
    sourceAccel ((0 : ℝ), 0, 10) = ((0 : ℝ), 0, -6674300000000000000) := by
  have h1 : norm3 ((0 : ℝ), 0, 10) = 10 := by rw [norm3_zaxis]; norm_num
  unfold sourceAccel
  rw [h1]
  norm_num [g, blackhole_mass, star_mass, Prod.ext_iff, Prod.smul_def,
    smul_eq_mul]

theorem physicsStep_ten :
    physicsStep ⟨((0 : ℝ), 0, 10), ((0 : ℝ), 0, 0)⟩
      = some ⟨((0 : ℝ), 0, -667429999999990), ((0 : ℝ), 0, -66743000000000000)⟩ := by
  have h1 : norm3 ((0 : ℝ), 0, 10) = 10 := by rw [norm3_zaxis]; norm_num
  unfold physicsStep
  simp only [h1, sourceAccel_ten]
  norm_num [Prod.ext_iff, Prod.smul_def, smul_eq_mul, StarState.mk.injEq]

/-- C8 counterexample: from `position = (0,0,10)`, `velocity = (0,0,0)` the
very first physics step strictly INCREASES the distance to the origin, so the
claimed strictly decreasing infall is false at its own starting state. -/
theorem c8_counterexample_first_step_increases :
    ∃ s1 : StarState,
      physicsStep ⟨((0 : ℝ), 0, 10), ((0 : ℝ), 0, 0)⟩ = some s1
      ∧ norm3 ((0 : ℝ), 0, 10) < norm3 s1.pos := by
  refine ⟨_, physicsStep_ten, ?_⟩
  show norm3 ((0 : ℝ), 0, 10) < norm3 ((0 : ℝ), 0, -667429999999990)
  rw [norm3_zaxis, norm3_zaxis, abs_of_nonneg (by norm_num),
    abs_of_nonpos (by norm_num)]
  norm_num

/-- C8 amended: from `position = (0,0,10)`, `velocity = (0,0,0)` the first
physics step overshoots the origin — it yields position
`(0, 0, -667429999999990)` and velocity `(0, 0, -6.6743e16)`, so the distance
to the origin strictly increases from `10` to `667429999999990` at the first
step; the distance is not strictly decreasing (and the code has no degeneracy
guard that could engage). -/
theorem c8_amended_first_step_overshoots :
    physicsStep ⟨((0 : ℝ), 0, 10), ((0 : ℝ), 0, 0)⟩
      = some ⟨((0 : ℝ), 0, -667429999999990), ((0 : ℝ), 0, -66743000000000000)⟩
    ∧ norm3 ((0 : ℝ), 0, -667429999999990) = 667429999999990
    ∧ norm3 ((0 : ℝ), 0, 10) < norm3 ((0 : ℝ), 0, -667429999999990) := by
  have h : norm3 ((0 : ℝ), 0, -667429999999990) = 667429999999990 := by
    rw [norm3_zaxis, abs_of_nonpos (by norm_num)]
    norm_num
  refine ⟨physicsStep_ten, h, ?_⟩
  rw [h, norm3_zaxis, abs_of_nonneg (by norm_num)]
  norm_num

/-! ## C9 -/

/-- The function names the module defines at top level (src/main.py lines 2,
60, 68, 159). No `create_disk` or `create_ring` is defined anywhere in the
file. -/
def definedFunctions : List String :=
  ["draw_background", "init_window", "create_sphere", "main"]

/-- The global function names `main` resolves before its `while` loop, in
call order (src/main.py lines 160-168): `init_window()`, `create_sphere(...)`
twice, then `create_disk(ctx)` and `create_ring(ctx)`. -/
def mainInitCalls : List String :=
  ["init_window", "create_sphere", "create_sphere", "create_disk", "create_ring"]

/-- The first called name that no definition binds: where Python raises
`NameError`. -/
def firstUndefined (calls defined : List String) : Option String :=
  calls.find? (fun n => !(defined.contains n))

/-- A Python runtime error, as far as the embedding needs one. -/
inductive PyError where
  | nameError (missing : String)

/-- The program's initial simulation state: the module globals at startup
(src/main.py lines 51-57). -/
noncomputable def initState : SimState :=
  ⟨⟨star_pos, star_vel⟩, initCamera, true⟩

/-- The `while running` loop (src/main.py lines 176-226) run over a finite
schedule of per-iteration event batches: the draw calls of the iterations it
performs, concatenated; it stops when `running` is cleared (the model also
stops at the physics step's degenerate division, where the source would
propagate NaN into rendering). -/
noncomputable def loopDraws (proj : Mat4) :
    SimState → List (List PyEvent) → List DrawCall
  | _, [] => []
  | st, events :: rest =>
      if st.running then
        match frameStep proj events st with
        | none => []
        | some (st', ds) => ds ++ loopDraws proj st' rest
      else []

/-- `main()` (src/main.py lines 159-228): initialization resolves each global
callee in order, and an unresolved name raises `NameError` there, before the
frame loop; only if every name resolved would the loop run and draw. -/
noncomputable def mainRun (frames : List (List PyEvent)) :
    Except PyError (List DrawCall) :=
  match firstUndefined mainInitCalls definedFunctions with
  | some n => .error (.nameError n)
  | none =>
      .ok (loopDraws (Mat4.perspective_projection 45 (800 / 600) 0.1 100)
        initState frames)

/-- C9: whatever events arrive, `main` raises `NameError` for `create_disk`
during initialization — `create_disk` and `create_ring` are called but
defined nowhere in the program — so the frame loop never runs and no draw
call is ever issued. -/
theorem c9_main_raises_nameerror :
    (∀ frames : List (List PyEvent),
        mainRun frames = .error (.nameError "create_disk"))
    ∧ "create_disk" ∉ definedFunctions
    ∧ "create_ring" ∉ definedFunctions :=
  ⟨fun _ => rfl, by decide, by decide⟩

/-! ## C10 -/

theorem processEvent_front_up (st : Bool × CameraPose) (e : PyEvent) :
    (processEvent st e).2.front = st.2.front
    ∧ (processEvent st e).2.up = st.2.up := by
  cases e with
  | quit => exact ⟨rfl, rfl⟩
  | keydown k => cases k <;> exact ⟨rfl, rfl⟩
  | otherEvent => exact ⟨rfl, rfl⟩

theorem applyEvents_front_up (events : List PyEvent) :
    ∀ st : Bool × CameraPose,
      (applyEvents events st).2.front = st.2.front
      ∧ (applyEvents events st).2.up = st.2.up := by
  induction events with
  | nil => exact fun _ => ⟨rfl, rfl⟩
  | cons e rest ih =>
      intro st
      have h1 := processEvent_front_up st e
      have h2 := ih (processEvent st e)
      exact ⟨h2.1.trans h1.1, h2.2.trans h1.2⟩

/-- C10: no operation of the program mutates the camera's front or up vector
(event handling only moves the position), the constants are
`front = (0,0,-1)` and `up = (0,1,0)`, and these are non-zero, non-parallel
(front is no scalar multiple of up) and make `cross(front, up)` a unit
vector. -/
theorem c10_front_up_never_mutated :
    (∀ (events : List PyEvent) (st : Bool × CameraPose),
        (applyEvents events st).2.front = st.2.front
        ∧ (applyEvents events st).2.up = st.2.up)
    ∧ camera_front = ((0 : ℝ), 0, -1)
    ∧ camera_up = ((0 : ℝ), 1, 0)
    ∧ camera_front ≠ 0
    ∧ camera_up ≠ 0
    ∧ (∀ t : ℝ, camera_front ≠ t • camera_up)
    ∧ norm3 (cross camera_front camera_up) = 1 := by
  refine ⟨fun events st => applyEvents_front_up events st, rfl, rfl, ?_, ?_, ?_, ?_⟩
  · simp [camera_front, Prod.ext_iff]
  · simp [camera_up, Prod.ext_iff]
  · intro t
    simp [camera_front, camera_up, Prod.ext_iff, Prod.smul_def, smul_eq_mul]
  · have hc : cross camera_front camera_up = ((1 : ℝ), 0, 0) := by
      unfold cross camera_front camera_up
      norm_num
    rw [hc]
    unfold norm3
    norm_num

end Blackhole
